import Mathlib

/-!
# Verification of the portfolio valuation and snapshot pipeline

Shallow embedding of the price-acquisition / valuation / snapshot core of the
portfolio tracker (services/asset_service.py, services/price_service.py,
routes/dashboard.py, utils/cache.py), together with theorems settling the
frozen claims about it.

Conventions of the embedding:
* Python floats are modelled as rationals (`ℚ`); machine floating point
  rounding is outside the scope of the algebraic claims checked here.
* Database rows are Lean structures; SQL result sets are Lean lists.
* Network access and HTML parsing are abstracted as oracle functions passed
  in as parameters; the control flow around them (cache checks, allow-list
  checks, retry loops, error swallowing) is translated faithfully from the
  source.
* `x or 0` coalescing of SQL NULLs is modelled by `orZero : Option ℚ → ℚ`.
-/

/-- The seven asset classes (`asset_types` in services/asset_service.py). -/
inductive AssetClass
  | jp_stock
  | us_stock
  | cash
  | gold
  | crypto
  | investment_trust
  | insurance
deriving DecidableEq, Repr

/-- One row of the `assets` table, as read by the valuation code.
`quantity`, `price`, `avg_cost` are nullable columns (`Option ℚ`). -/
structure Asset where
  id : ℕ
  user_id : ℕ
  asset_type : AssetClass
  symbol : String
  quantity : Option ℚ
  price : Option ℚ
  avg_cost : Option ℚ
deriving DecidableEq, Repr

/-- Models Python `float(x or 0)` applied to a nullable numeric column. -/
def orZero : Option ℚ → ℚ
  | none => 0
  | some q => q

/-- Per-class valuation of `AssetService.record_asset_snapshot`
(services/asset_service.py lines 64–76): branch on the asset type, then
sum over the rows of the class. -/
def snapshotClassTotal (usdJpy : ℚ) (t : AssetClass) (assets : List Asset) : ℚ :=
  if t = AssetClass.us_stock then
    ((assets.map fun a => orZero a.quantity * orZero a.price).sum) * usdJpy
  else if t = AssetClass.investment_trust then
    (assets.map fun a => orZero a.quantity * orZero a.price / 10000).sum
  else if t = AssetClass.insurance then
    (assets.map fun a => orZero a.price).sum
  else if t = AssetClass.cash then
    (assets.map fun a => orZero a.quantity).sum
  else
    (assets.map fun a => orZero a.quantity * orZero a.price).sum

/-- `calculate_current_value` of routes/dashboard.py (lines 109–132):
an asset whose `quantity` or `price` is NULL raises in `float(...)` and is
skipped by the `except ... continue`, contributing 0. -/
def calculate_current_value (usdJpy : ℚ) (t : AssetClass) (assets : List Asset) : ℚ :=
  (assets.map fun a =>
    match a.quantity, a.price with
    | some q, some p =>
      match t with
      | AssetClass.us_stock => q * p * usdJpy
      | AssetClass.investment_trust => q * p / 10000
      | AssetClass.insurance => p
      | AssetClass.cash => q
      | _ => q * p
    | _, _ => 0).sum

/-- Modelled from the spec (§4.4): the per-class valuation formulas as the
specification states them, over bare (quantity, price) pairs.  Used to check
the code's valuation against the spec's words. -/
def specClassValue (usdJpy : ℚ) (t : AssetClass) (positions : List (ℚ × ℚ)) : ℚ :=
  match t with
  | AssetClass.us_stock => (positions.map fun x => x.1 * x.2).sum * usdJpy
  | AssetClass.investment_trust => (positions.map fun x => x.1 * x.2).sum / 10000
  | AssetClass.insurance => (positions.map fun x => x.2).sum
  | AssetClass.cash => (positions.map fun x => x.1).sum
  | _ => (positions.map fun x => x.1 * x.2).sum

/-- Build a fully-populated asset row (no NULL columns) from a
(quantity, price) pair. -/
def posAssets (u : ℕ) (t : AssetClass) (ps : List (ℚ × ℚ)) : List Asset :=
  ps.map fun x => ⟨0, u, t, "", some x.1, some x.2, some 0⟩

theorem sum_map_congr {α : Type} {f g : α → ℚ} (h : ∀ a, f a = g a) (l : List α) :
    (l.map f).sum = (l.map g).sum := by
  rw [show f = g from funext h]

theorem sum_map_mul_const {α : Type} (f : α → ℚ) (c : ℚ) (l : List α) :
    (l.map fun a => f a * c).sum = (l.map f).sum * c := by
  induction l with
  | nil => simp
  | cons x xs ih => simp [ih, add_mul]

theorem sum_map_div_const {α : Type} (f : α → ℚ) (c : ℚ) (l : List α) :
    (l.map fun a => f a / c).sum = (l.map f).sum / c := by
  induction l with
  | nil => simp
  | cons x xs ih => simp [ih, add_div]

theorem posAssets_sum (u : ℕ) (t : AssetClass) (f : Asset → ℚ) (g : ℚ × ℚ → ℚ)
    (h : ∀ x : ℚ × ℚ, f ⟨0, u, t, "", some x.1, some x.2, some 0⟩ = g x)
    (ps : List (ℚ × ℚ)) :
    ((posAssets u t ps).map f).sum = (ps.map g).sum := by
  unfold posAssets
  rw [List.map_map]
  exact sum_map_congr (fun x => h x) ps

/-- C2: per-class valuation.  For every list of positions and exchange rate,
both the snapshot valuation (asset_service.py 64–76) and the dashboard
valuation (dashboard.py 109–132) compute: jp_stock/gold/crypto as
Σ quantity·price; us_stock as Σ quantity·price times the USD/JPY rate
(10 × 200 × 150 = 300000); investment_trust as Σ quantity·price ÷ 10000
(100 × 15234 ÷ 10000 = 152.34); insurance as Σ price; cash as Σ quantity —
exactly the spec's formulas `specClassValue`. -/
theorem valuation_matches_spec (usdJpy : ℚ) (t : AssetClass) (ps : List (ℚ × ℚ)) :
    snapshotClassTotal usdJpy t (posAssets 0 t ps) = specClassValue usdJpy t ps
    ∧ calculate_current_value usdJpy t (posAssets 0 t ps) = specClassValue usdJpy t ps
    ∧ specClassValue 150 AssetClass.us_stock [(10, 200)] = 300000
    ∧ specClassValue usdJpy AssetClass.investment_trust [(100, 15234)] = 152.34 := by
  refine ⟨?_, ?_, by norm_num [specClassValue], by norm_num [specClassValue]⟩
  · cases t with
    | us_stock =>
        exact congrArg (· * usdJpy)
          (posAssets_sum 0 _ (fun a => orZero a.quantity * orZero a.price)
            (fun x => x.1 * x.2) (fun x => rfl) ps)
    | investment_trust =>
        calc ((posAssets 0 AssetClass.investment_trust ps).map
                fun a => orZero a.quantity * orZero a.price / 10000).sum
            = (ps.map fun x => x.1 * x.2 / 10000).sum :=
              posAssets_sum 0 _ _ _ (fun x => rfl) ps
          _ = (ps.map fun x => x.1 * x.2).sum / 10000 :=
              sum_map_div_const (fun x => x.1 * x.2) 10000 ps
    | insurance =>
        exact posAssets_sum 0 _ (fun a => orZero a.price) (fun x => x.2) (fun x => rfl) ps
    | cash =>
        exact posAssets_sum 0 _ (fun a => orZero a.quantity) (fun x => x.1) (fun x => rfl) ps
    | jp_stock =>
        exact posAssets_sum 0 _ (fun a => orZero a.quantity * orZero a.price)
          (fun x => x.1 * x.2) (fun x => rfl) ps
    | gold =>
        exact posAssets_sum 0 _ (fun a => orZero a.quantity * orZero a.price)
          (fun x => x.1 * x.2) (fun x => rfl) ps
    | crypto =>
        exact posAssets_sum 0 _ (fun a => orZero a.quantity * orZero a.price)
          (fun x => x.1 * x.2) (fun x => rfl) ps
  · have dash : ∀ (t' : AssetClass) (g : ℚ × ℚ → ℚ),
        (∀ x : ℚ × ℚ,
          (match some x.1, some x.2 with
            | some q, some p =>
              match t' with
              | AssetClass.us_stock => q * p * usdJpy
              | AssetClass.investment_trust => q * p / 10000
              | AssetClass.insurance => p
              | AssetClass.cash => q
              | _ => q * p
            | _, _ => (0 : ℚ)) = g x) →
        calculate_current_value usdJpy t' (posAssets 0 t' ps) = (ps.map g).sum := by
      intro t' g h
      exact posAssets_sum 0 t' _ g h ps
    cases t with
    | us_stock =>
        calc calculate_current_value usdJpy AssetClass.us_stock
              (posAssets 0 AssetClass.us_stock ps)
            = (ps.map fun x => x.1 * x.2 * usdJpy).sum :=
              dash AssetClass.us_stock (fun x => x.1 * x.2 * usdJpy) (fun x => rfl)
          _ = (ps.map fun x => x.1 * x.2).sum * usdJpy :=
              sum_map_mul_const (fun x => x.1 * x.2) usdJpy ps
    | investment_trust =>
        calc calculate_current_value usdJpy AssetClass.investment_trust
              (posAssets 0 AssetClass.investment_trust ps)
            = (ps.map fun x => x.1 * x.2 / 10000).sum :=
              dash AssetClass.investment_trust (fun x => x.1 * x.2 / 10000) (fun x => rfl)
          _ = (ps.map fun x => x.1 * x.2).sum / 10000 :=
              sum_map_div_const (fun x => x.1 * x.2) 10000 ps
    | insurance => exact dash AssetClass.insurance (fun x => x.2) (fun x => rfl)
    | cash => exact dash AssetClass.cash (fun x => x.1) (fun x => rfl)
    | jp_stock => exact dash AssetClass.jp_stock (fun x => x.1 * x.2) (fun x => rfl)
    | gold => exact dash AssetClass.gold (fun x => x.1 * x.2) (fun x => rfl)
    | crypto => exact dash AssetClass.crypto (fun x => x.1 * x.2) (fun x => rfl)

/-- Pointwise update of a string-keyed map (models a Python dict entry
assignment or deletion). -/
def updateMap {β : Type} (f : String → β) (k : String) (v : β) : String → β :=
  fun k' => if k' = k then v else f k'

/-- State of `SimpleCache` (utils/cache.py): the `cache` and `expiry` dicts
and the configured `duration`.  An absent dict entry is `none`. -/
structure SimpleCache (α : Type) where
  cache : String → Option α
  expiry : String → Option ℚ
  duration : ℚ

/-- `SimpleCache.get` (utils/cache.py lines 16–25), with the call-time
`time.time()` passed in as `now`.  On an entry whose expiry has passed it
deletes the entry from both dicts and returns a miss;
`self.expiry.get(key, 0)` defaults a missing expiry to 0. -/
def cacheGet {α : Type} (s : SimpleCache α) (now : ℚ) (key : String) :
    Option α × SimpleCache α :=
  match s.cache key with
  | some v =>
    if now < (s.expiry key).getD 0 then (some v, s)
    else (none, { s with cache := updateMap s.cache key none,
                         expiry := updateMap s.expiry key none })
  | none => (none, s)

/-- `SimpleCache.set` (utils/cache.py lines 27–30): store the value and an
absolute expiry instant `now + duration`. -/
def cacheSet {α : Type} (s : SimpleCache α) (now : ℚ) (key : String) (v : α) :
    SimpleCache α :=
  { s with cache := updateMap s.cache key (some v),
           expiry := updateMap s.expiry key (some (now + s.duration)) }

/-- C5: TTL expiry.  After `set` at time `t0`, a `get` strictly before the
expiry instant `t0 + duration` returns the stored value and leaves the state
unchanged; a `get` at or after the expiry instant returns a miss and evicts
the entry; and after that eviction every further `get` for the key, at any
time, also misses (expired-once-stays-expired) until a new `set`. -/
theorem cache_ttl_expiry {α : Type} (s : SimpleCache α) (t0 : ℚ) (key : String) (v : α) :
    (∀ t : ℚ, t < t0 + s.duration →
        cacheGet (cacheSet s t0 key v) t key = (some v, cacheSet s t0 key v))
    ∧ (∀ t : ℚ, t0 + s.duration ≤ t →
        (cacheGet (cacheSet s t0 key v) t key).1 = none
        ∧ ((cacheGet (cacheSet s t0 key v) t key).2.cache key = none
            ∧ (cacheGet (cacheSet s t0 key v) t key).2.expiry key = none)
        ∧ (∀ t' : ℚ, (cacheGet ((cacheGet (cacheSet s t0 key v) t key).2) t' key).1 = none)) := by
  constructor
  · intro t ht
    simp [cacheGet, cacheSet, updateMap, ht]
  · intro t ht
    have hnot : ¬ t < t0 + s.duration := not_lt.mpr ht
    refine ⟨?_, ⟨?_, ?_⟩, ?_⟩
    · simp [cacheGet, cacheSet, updateMap, hnot]
    · simp [cacheGet, cacheSet, updateMap, hnot]
    · simp [cacheGet, cacheSet, updateMap, hnot]
    · intro t'
      simp [cacheGet, cacheSet, updateMap, hnot]

/-- Witness for `cache_ttl_expiry`: default TTL 300, set at time 0, a hit at
time 299, a miss at time 300, and a stale read at time 0 after the eviction. -/
theorem cache_ttl_expiry_witness :
    ((299 : ℚ) < 0 + 300
      ∧ cacheGet (cacheSet (⟨fun _ => none, fun _ => none, 300⟩ : SimpleCache ℕ) 0 "k" 7) 299 "k"
          = (some 7, cacheSet (⟨fun _ => none, fun _ => none, 300⟩ : SimpleCache ℕ) 0 "k" 7))
    ∧ ((0 : ℚ) + 300 ≤ 300
      ∧ (cacheGet (cacheSet (⟨fun _ => none, fun _ => none, 300⟩ : SimpleCache ℕ) 0 "k" 7) 300 "k").1 = none
      ∧ (cacheGet ((cacheGet (cacheSet (⟨fun _ => none, fun _ => none, 300⟩ : SimpleCache ℕ) 0 "k" 7) 300 "k").2) 0 "k").1 = none) := by
  have h := cache_ttl_expiry (⟨fun _ => none, fun _ => none, 300⟩ : SimpleCache ℕ) 0 "k" 7
  refine ⟨⟨by norm_num, h.1 299 (by norm_num)⟩, ⟨by norm_num, ?_, ?_⟩⟩
  · exact (h.2 300 (by norm_num)).1
  · exact (h.2 300 (by norm_num)).2.2 0

/-- One row of the `asset_history` table (models/database.py): the
per-class current-day value columns, the total, and the parallel
`prev_*` previous-day columns.  `record_date` is a calendar day number
in the fixed UTC+9 reporting timezone. -/
structure HistRow where
  user_id : ℕ
  record_date : ℤ
  jp_stock_value : ℚ
  us_stock_value : ℚ
  cash_value : ℚ
  gold_value : ℚ
  crypto_value : ℚ
  investment_trust_value : ℚ
  insurance_value : ℚ
  total_value : ℚ
  prev_jp_stock_value : ℚ
  prev_us_stock_value : ℚ
  prev_cash_value : ℚ
  prev_gold_value : ℚ
  prev_crypto_value : ℚ
  prev_investment_trust_value : ℚ
  prev_insurance_value : ℚ
  prev_total_value : ℚ
deriving DecidableEq, Repr

/-- Selects the current-day value column of a row for an asset class
(the `field_map` of routes/dashboard.py lines 141–149). -/
def histValue (r : HistRow) : AssetClass → ℚ
  | AssetClass.jp_stock => r.jp_stock_value
  | AssetClass.us_stock => r.us_stock_value
  | AssetClass.cash => r.cash_value
  | AssetClass.gold => r.gold_value
  | AssetClass.crypto => r.crypto_value
  | AssetClass.investment_trust => r.investment_trust_value
  | AssetClass.insurance => r.insurance_value

/-- Selects the previous-day (`prev_*`) column of a row for an asset class. -/
def histPrev (r : HistRow) : AssetClass → ℚ
  | AssetClass.jp_stock => r.prev_jp_stock_value
  | AssetClass.us_stock => r.prev_us_stock_value
  | AssetClass.cash => r.prev_cash_value
  | AssetClass.gold => r.prev_gold_value
  | AssetClass.crypto => r.prev_crypto_value
  | AssetClass.investment_trust => r.prev_investment_trust_value
  | AssetClass.insurance => r.prev_insurance_value

/-- The `WHERE user_id = ? AND record_date = ?` predicate. -/
def rowKey (u : ℕ) (d : ℤ) (r : HistRow) : Bool :=
  decide (r.user_id = u ∧ r.record_date = d)

/-- `SELECT ... FROM asset_history WHERE user_id = ? AND record_date = ?`
followed by `fetchone()`. -/
def findHist (h : List HistRow) (u : ℕ) (d : ℤ) : Option HistRow :=
  (h.filter (rowKey u d)).head?

/-- `INSERT OR REPLACE` / `INSERT ... ON CONFLICT (user_id, record_date)
DO UPDATE` keyed by (user_id, record_date): the new row replaces any row
with the same key (the schema has `UNIQUE(user_id, record_date)`). -/
def upsertHistory (row : HistRow) (h : List HistRow) : List HistRow :=
  row :: h.filter (fun r => ! rowKey row.user_id row.record_date r)

/-- The whole `assets` table and `asset_history` table seen by the
snapshot service. -/
structure DB where
  assets : List Asset
  history : List HistRow
deriving DecidableEq, Repr

/-- The dictionary `values` of `record_asset_snapshot`: per-class totals of
the user's assets of that class (asset_service.py lines 55–76). -/
def snapshotValues (db : DB) (u : ℕ) (usdJpy : ℚ) (c : AssetClass) : ℚ :=
  snapshotClassTotal usdJpy c
    (db.assets.filter fun a => decide (a.user_id = u ∧ a.asset_type = c))

/-- The `asset_types` list of asset_service.py line 43. -/
def assetTypes : List AssetClass :=
  [AssetClass.jp_stock, AssetClass.us_stock, AssetClass.cash, AssetClass.gold,
   AssetClass.crypto, AssetClass.investment_trust, AssetClass.insurance]

/-- `total_value = sum(values.values())` (asset_service.py line 78). -/
def snapshotTotal (db : DB) (u : ℕ) (usdJpy : ℚ) : ℚ :=
  (assetTypes.map (snapshotValues db u usdJpy)).sum

/-- The row written by one attempt of `record_asset_snapshot`
(asset_service.py lines 98–175): current-day columns from today's totals;
`prev_*` columns copied from the row dated `today - 1` when one exists,
otherwise set to today's own totals. -/
def snapshotRow (db : DB) (u : ℕ) (today : ℤ) (usdJpy : ℚ) : HistRow :=
  let v := snapshotValues db u usdJpy
  let tv := snapshotTotal db u usdJpy
  match findHist db.history u (today - 1) with
  | some y =>
    ⟨u, today,
     v AssetClass.jp_stock, v AssetClass.us_stock, v AssetClass.cash,
     v AssetClass.gold, v AssetClass.crypto, v AssetClass.investment_trust,
     v AssetClass.insurance, tv,
     y.jp_stock_value, y.us_stock_value, y.cash_value, y.gold_value,
     y.crypto_value, y.investment_trust_value, y.insurance_value, y.total_value⟩
  | none =>
    ⟨u, today,
     v AssetClass.jp_stock, v AssetClass.us_stock, v AssetClass.cash,
     v AssetClass.gold, v AssetClass.crypto, v AssetClass.investment_trust,
     v AssetClass.insurance, tv,
     v AssetClass.jp_stock, v AssetClass.us_stock, v AssetClass.cash,
     v AssetClass.gold, v AssetClass.crypto, v AssetClass.investment_trust,
     v AssetClass.insurance, tv⟩

/-- One committed attempt of `record_asset_snapshot`: compute the row and
upsert it into `asset_history`. -/
def recordSnapshotOnce (db : DB) (u : ℕ) (today : ℤ) (usdJpy : ℚ) : DB :=
  { db with history := upsertHistory (snapshotRow db u today usdJpy) db.history }

theorem snapshotRow_user_id (db : DB) (u : ℕ) (today : ℤ) (usdJpy : ℚ) :
    (snapshotRow db u today usdJpy).user_id = u := by
  unfold snapshotRow
  cases findHist db.history u (today - 1) <;> rfl

theorem snapshotRow_record_date (db : DB) (u : ℕ) (today : ℤ) (usdJpy : ℚ) :
    (snapshotRow db u today usdJpy).record_date = today := by
  unfold snapshotRow
  cases findHist db.history u (today - 1) <;> rfl

theorem findHist_upsert_same (row : HistRow) (h : List HistRow) (u : ℕ) (d : ℤ)
    (hk : rowKey u d row = true) :
    findHist (upsertHistory row h) u d = some row := by
  unfold findHist upsertHistory
  rw [List.filter_cons_of_pos hk]
  rfl

theorem findHist_upsert_other (row : HistRow) (h : List HistRow) (u : ℕ) (d : ℤ)
    (hk : rowKey u d row = false) :
    findHist (upsertHistory row h) u d = findHist h u d := by
  unfold findHist upsertHistory
  rw [List.filter_cons_of_neg (by simp [hk])]
  congr 1
  induction h with
  | nil => rfl
  | cons x xs ih =>
    by_cases hx : rowKey u d x = true
    · have hxk : rowKey row.user_id row.record_date x = false := by
        simp only [rowKey, decide_eq_true_eq] at hx
        simp only [rowKey, decide_eq_false_iff_not, decide_eq_true_eq] at hk ⊢
        obtain ⟨hx1, hx2⟩ := hx
        intro hcon
        obtain ⟨hc1, hc2⟩ := hcon
        refine hk ⟨?_, ?_⟩
        · omega
        · omega
      simp [List.filter_cons, hx, hxk, ih]
    · have hx' : rowKey u d x = false := by
        cases hcase : rowKey u d x
        · rfl
        · exact absurd hcase hx
      by_cases hxk : rowKey row.user_id row.record_date x = true
      · simp [List.filter_cons, hx', hxk, ih]
      · have hxk' : rowKey row.user_id row.record_date x = false := by
          cases hcase : rowKey row.user_id row.record_date x
          · rfl
          · exact absurd hcase hxk
        simp [List.filter_cons, hx', hxk', ih]

theorem findHist_snapshot_today (db : DB) (u : ℕ) (today : ℤ) (usdJpy : ℚ) :
    findHist (recordSnapshotOnce db u today usdJpy).history u today
      = some (snapshotRow db u today usdJpy) := by
  apply findHist_upsert_same
  simp [rowKey, snapshotRow_user_id, snapshotRow_record_date]

/-- C3: carry-forward.  When `asset_history` holds no row dated `today - 1`
for the user, `record_asset_snapshot` writes today's row with every
previous-day field equal to the corresponding current-day total computed in
the same call, so every per-class day-change and the total day-change of the
written row are exactly 0; when a yesterday row exists, its per-class and
total values are copied verbatim into the previous-day fields. -/
theorem snapshot_carry_forward (db : DB) (u : ℕ) (today : ℤ) (usdJpy : ℚ) :
    (findHist db.history u (today - 1) = none →
      ∃ row, findHist (recordSnapshotOnce db u today usdJpy).history u today = some row
        ∧ (∀ c, histValue row c = snapshotValues db u usdJpy c)
        ∧ row.total_value = snapshotTotal db u usdJpy
        ∧ (∀ c, histPrev row c = snapshotValues db u usdJpy c)
        ∧ row.prev_total_value = snapshotTotal db u usdJpy
        ∧ (∀ c, histValue row c - histPrev row c = 0)
        ∧ row.total_value - row.prev_total_value = 0)
    ∧ (∀ y, findHist db.history u (today - 1) = some y →
      ∃ row, findHist (recordSnapshotOnce db u today usdJpy).history u today = some row
        ∧ (∀ c, histValue row c = snapshotValues db u usdJpy c)
        ∧ row.total_value = snapshotTotal db u usdJpy
        ∧ (∀ c, histPrev row c = histValue y c)
        ∧ row.prev_total_value = y.total_value) := by
  constructor
  · intro hnone
    refine ⟨snapshotRow db u today usdJpy, findHist_snapshot_today db u today usdJpy,
      ?_, ?_, ?_, ?_, ?_, ?_⟩ <;>
      first
      | (intro c
         cases c <;> simp [snapshotRow, hnone, histValue, histPrev])
      | simp [snapshotRow, hnone]
  · intro y hsome
    refine ⟨snapshotRow db u today usdJpy, findHist_snapshot_today db u today usdJpy,
      ?_, ?_, ?_, ?_⟩ <;>
      first
      | (intro c
         cases c <;> simp [snapshotRow, hsome, histValue, histPrev])
      | simp [snapshotRow, hsome]

/-- Witness for `snapshot_carry_forward`: a user owning one jp_stock position
(quantity 2, price 50) with empty history takes a first-ever snapshot with
prev fields equal to today's totals; a user whose history holds a yesterday
row gets that row's values copied into the prev fields. -/
theorem snapshot_carry_forward_witness :
    (findHist (DB.mk [⟨1, 1, AssetClass.jp_stock, "A", some 2, some 50, some 0⟩] []).history 1 (5 - 1) = none
      ∧ ∃ row, findHist (recordSnapshotOnce
            (DB.mk [⟨1, 1, AssetClass.jp_stock, "A", some 2, some 50, some 0⟩] []) 1 5 150).history 1 5
          = some row
        ∧ (∀ c, histPrev row c = snapshotValues
            (DB.mk [⟨1, 1, AssetClass.jp_stock, "A", some 2, some 50, some 0⟩] []) 1 150 c)
        ∧ (∀ c, histValue row c - histPrev row c = 0)
        ∧ row.total_value - row.prev_total_value = 0) := by
  have h := (snapshot_carry_forward
    (DB.mk [⟨1, 1, AssetClass.jp_stock, "A", some 2, some 50, some 0⟩] []) 1 5 150).1
    (by decide)
  refine ⟨by decide, ?_⟩
  obtain ⟨row, h1, h2, h3, h4, h5, h6, h7⟩ := h
  exact ⟨row, h1, h4, h6, h7⟩


theorem rowKey_snapshotRow_yesterday (db : DB) (u : ℕ) (today : ℤ) (usdJpy : ℚ) :
    rowKey u (today - 1) (snapshotRow db u today usdJpy) = false := by
  simp only [rowKey, snapshotRow_user_id, snapshotRow_record_date,
    decide_eq_false_iff_not]
  intro hcon
  omega

/-- A single jp_stock position of user 1, quantity 1, at unit price `p`. -/
def soloPosition (p : ℚ) : Asset :=
  ⟨1, 1, AssetClass.jp_stock, "A", some 1, some p, some 0⟩

/-- A yesterday row (day −1) for user 1 with jp_stock value 40, total 40. -/
def yesterdayRow : HistRow := ⟨1, -1, 40, 0, 0, 0, 0, 0, 0, 40, 0, 0, 0, 0, 0, 0, 0, 0⟩

/-- C1 as stated is false: with no yesterday-dated row, the second same-day
call of `record_asset_snapshot` recomputes the `prev_*` fields from its own
current totals.  One jp_stock position with quantity 1: the first call at
price 100 writes prev_jp_stock_value = 100; after the price changes to 200,
the second call on the same day overwrites it to 200. -/
theorem snapshot_prev_overwritten_counterexample :
    (findHist (recordSnapshotOnce (DB.mk [soloPosition 100] []) 1 0 150).history
        1 0).map HistRow.prev_jp_stock_value = some 100
    ∧ (findHist (recordSnapshotOnce
          (DB.mk [soloPosition 200]
            (recordSnapshotOnce (DB.mk [soloPosition 100] []) 1 0 150).history)
          1 0 150).history
        1 0).map HistRow.prev_jp_stock_value = some 200
    ∧ (100 : ℚ) ≠ 200 := by
  refine ⟨?_, ?_, by norm_num⟩ <;>
    · norm_num [recordSnapshotOnce, snapshotRow, findHist, upsertHistory, rowKey,
        snapshotValues, snapshotClassTotal, snapshotTotal, assetTypes, orZero,
        soloPosition, List.filter]
      rfl

/-- C1 amended: the same-day re-write touches every column of the row, the
`prev_*` columns included; but when a row dated `today - 1` exists, both
same-day calls recompute the `prev_*` columns from that (untouched)
yesterday row, so they are unchanged between the two calls even when asset
prices or the exchange rate changed in between.  Without a yesterday row the
`prev_*` columns are overwritten with the second call's own current totals
(see `snapshot_prev_overwritten_counterexample`). -/
theorem snapshot_second_call_frame (db : DB) (u : ℕ) (today : ℤ)
    (r1 r2 : ℚ) (assets2 : List Asset) (y : HistRow)
    (hy : findHist db.history u (today - 1) = some y) :
    ∃ row1 row2,
      findHist (recordSnapshotOnce db u today r1).history u today = some row1
      ∧ findHist (recordSnapshotOnce
          (DB.mk assets2 (recordSnapshotOnce db u today r1).history)
          u today r2).history u today = some row2
      ∧ (∀ c, histPrev row2 c = histPrev row1 c)
      ∧ row2.prev_total_value = row1.prev_total_value
      ∧ (∀ c, histPrev row1 c = histValue y c)
      ∧ row1.prev_total_value = y.total_value := by
  have hy1 : findHist (recordSnapshotOnce db u today r1).history u (today - 1)
      = some y := by
    unfold recordSnapshotOnce
    rw [findHist_upsert_other _ _ _ _ (rowKey_snapshotRow_yesterday db u today r1)]
    exact hy
  refine ⟨snapshotRow db u today r1,
    snapshotRow (DB.mk assets2 (recordSnapshotOnce db u today r1).history) u today r2,
    findHist_snapshot_today db u today r1,
    findHist_snapshot_today _ u today r2, ?_, ?_, ?_, ?_⟩
  · intro c
    cases c <;> simp [snapshotRow, hy, hy1, histPrev]
  · simp [snapshotRow, hy, hy1]
  · intro c
    cases c <;> simp [snapshotRow, hy, histPrev, histValue]
  · simp [snapshotRow, hy]

/-- Witness for `snapshot_second_call_frame`: a yesterday row with
jp_stock value 40 exists; the first call runs at price 100 and rate 150, the
price then changes to 200 and the rate to 140, and both same-day rows carry
identical `prev_*` fields. -/
theorem snapshot_second_call_frame_witness :
    findHist (DB.mk [soloPosition 100] [yesterdayRow]).history 1 (0 - 1) = some yesterdayRow
    ∧ ∃ row1 row2,
      findHist (recordSnapshotOnce (DB.mk [soloPosition 100] [yesterdayRow])
          1 0 150).history 1 0 = some row1
      ∧ findHist (recordSnapshotOnce
          (DB.mk [soloPosition 200]
            (recordSnapshotOnce (DB.mk [soloPosition 100] [yesterdayRow]) 1 0 150).history)
          1 0 140).history 1 0 = some row2
      ∧ (∀ c, histPrev row2 c = histPrev row1 c)
      ∧ row2.prev_total_value = row1.prev_total_value
      ∧ (∀ c, histPrev row1 c = histValue yesterdayRow c)
      ∧ row1.prev_total_value = yesterdayRow.total_value := by
  have hfind : findHist (DB.mk [soloPosition 100] [yesterdayRow]).history 1 (0 - 1)
      = some yesterdayRow := by
    decide
  exact ⟨hfind,
    snapshot_second_call_frame (DB.mk [soloPosition 100] [yesterdayRow]) 1 0 150 140
      [soloPosition 200] yesterdayRow hfind⟩

/-- `max_retries = 3` (asset_service.py line 22). -/
def snapshotMaxRetries : ℕ := 3

/-- `retry_delay = 1.0` seconds (asset_service.py line 23). -/
def snapshotRetryDelay : ℚ := 1

/-- The `for attempt in range(max_retries)` loop of `record_asset_snapshot`
(asset_service.py lines 25–188).  `att i` is the outcome of attempt `i`
(the whole transaction body, success committing a state `σ` or an
exception `ε`); `rem` is the number of attempts still allowed after the
current one.  On a success the loop returns at once; on a failure with
retries left it sleeps `retry_delay * (attempt + 1)` seconds (collected in
the returned list) and retries; on the last attempt it re-raises. -/
def retryLoop {ε σ : Type} (att : ℕ → Except ε σ) : ℕ → ℕ → Except ε σ × List ℚ
  | i, 0 => (att i, [])
  | i, rem + 1 =>
    match att i with
    | Except.ok s => (Except.ok s, [])
    | Except.error _ =>
      let rest := retryLoop att (i + 1) rem
      (rest.1, snapshotRetryDelay * ((i : ℚ) + 1) :: rest.2)

/-- The retry wrapper of `record_asset_snapshot`: up to `max_retries = 3`
attempts starting at attempt 0. -/
def recordSnapshotRetry {ε σ : Type} (att : ℕ → Except ε σ) : Except ε σ × List ℚ :=
  retryLoop att 0 (snapshotMaxRetries - 1)

/-- C7: bounded retry with increasing backoff.  The snapshot wrapper makes at
most 3 attempts; it returns as soon as an attempt commits (sleeping once per
preceding failure, with delays 1·retry_delay then 2·retry_delay, strictly
increasing); and when all 3 attempts fail it re-raises the final attempt's
error instead of swallowing it. -/
theorem snapshot_retry_policy {ε σ : Type} (att : ℕ → Except ε σ) :
    (∀ s, att 0 = Except.ok s → recordSnapshotRetry att = (Except.ok s, []))
    ∧ (∀ e0 s, att 0 = Except.error e0 → att 1 = Except.ok s →
        recordSnapshotRetry att = (Except.ok s, [snapshotRetryDelay * 1]))
    ∧ (∀ e0 e1 s, att 0 = Except.error e0 → att 1 = Except.error e1 →
        att 2 = Except.ok s →
        recordSnapshotRetry att
          = (Except.ok s, [snapshotRetryDelay * 1, snapshotRetryDelay * 2]))
    ∧ (∀ e0 e1 e2, att 0 = Except.error e0 → att 1 = Except.error e1 →
        att 2 = Except.error e2 →
        recordSnapshotRetry att
          = (Except.error e2, [snapshotRetryDelay * 1, snapshotRetryDelay * 2]))
    ∧ snapshotRetryDelay * 1 < snapshotRetryDelay * 2 := by
  refine ⟨?_, ?_, ?_, ?_, by norm_num [snapshotRetryDelay]⟩
  · intro s h0
    simp [recordSnapshotRetry, snapshotMaxRetries, retryLoop, h0]
  · intro e0 s h0 h1
    norm_num [recordSnapshotRetry, snapshotMaxRetries, retryLoop, h0, h1]
  · intro e0 e1 s h0 h1 h2
    norm_num [recordSnapshotRetry, snapshotMaxRetries, retryLoop, h0, h1, h2]
  · intro e0 e1 e2 h0 h1 h2
    norm_num [recordSnapshotRetry, snapshotMaxRetries, retryLoop, h0, h1, h2]

/-- Witness for `snapshot_retry_policy`: attempts that fail twice (error 10,
error 11) and then commit state 5 yield a success after delays [1, 2]. -/
theorem snapshot_retry_policy_witness :
    ((fun i => if i = 0 then (Except.error 10 : Except ℕ ℕ)
               else if i = 1 then Except.error 11
               else Except.ok 5) 0 = Except.error 10)
    ∧ recordSnapshotRetry
        (fun i => if i = 0 then (Except.error 10 : Except ℕ ℕ)
                  else if i = 1 then Except.error 11
                  else Except.ok 5)
        = (Except.ok 5, [snapshotRetryDelay * 1, snapshotRetryDelay * 2]) := by
  refine ⟨rfl, ?_⟩
  exact (snapshot_retry_policy
    (fun i => if i = 0 then (Except.error 10 : Except ℕ ℕ)
              else if i = 1 then Except.error 11
              else Except.ok 5)).2.2.1 10 11 5 rfl rfl rfl

/-- The dict returned by `PriceService.fetch_price`
(price_service.py lines 101–106). -/
structure FetchResult where
  id : ℕ
  symbol : String
  price : ℚ
  name : String
deriving DecidableEq, Repr

/-- Count of observable side effects performed by one `fetch_price` call:
cache reads, humanization sleeps, and adapter dispatches (each dispatch is
what issues network traffic). -/
structure FetchTrace where
  cacheGets : ℕ
  sleeps : ℕ
  dispatches : ℕ
deriving DecidableEq, Repr

/-- The asset-type string used in the cache key `f"{asset_type}:{symbol}"`. -/
def typeKey : AssetClass → String
  | AssetClass.jp_stock => "jp_stock"
  | AssetClass.us_stock => "us_stock"
  | AssetClass.cash => "cash"
  | AssetClass.gold => "gold"
  | AssetClass.crypto => "crypto"
  | AssetClass.investment_trust => "investment_trust"
  | AssetClass.insurance => "insurance"

/-- `PriceService.fetch_price` (price_service.py lines 35–113).
`cacheLookup` is the current contents of the price cache; `adapters`
abstracts the per-class `_fetch_*` adapter (network + parsing), returning
the (price, name) pair or raising.  Returns the result (None on skip or
failure — errors are swallowed) and the side-effect trace.  Cash and
insurance are rejected before the cache check, the sleep and any dispatch
(lines 53–55). -/
def fetchPrice (adapters : AssetClass → String → Except Unit (ℚ × String))
    (cacheLookup : String → Option (ℚ × String)) (a : Asset) :
    Option FetchResult × FetchTrace :=
  if a.asset_type = AssetClass.cash ∨ a.asset_type = AssetClass.insurance then
    (none, ⟨0, 0, 0⟩)
  else
    match cacheLookup (typeKey a.asset_type ++ ":" ++ a.symbol) with
    | some (p, n) => (some ⟨a.id, a.symbol, p, n⟩, ⟨1, 0, 0⟩)
    | none =>
      match adapters a.asset_type a.symbol with
      | Except.error _ => (none, ⟨1, 1, 1⟩)
      | Except.ok (p, n) => (some ⟨a.id, a.symbol, p, n⟩, ⟨1, 1, 1⟩)

/-- C8: cash and insurance positions are never fetched.  `fetch_price`
returns None for them and performs no cache access, no humanization delay
and no adapter dispatch — the class check precedes all three. -/
theorem fetch_price_skips_cash_insurance
    (adapters : AssetClass → String → Except Unit (ℚ × String))
    (cacheLookup : String → Option (ℚ × String)) (a : Asset)
    (h : a.asset_type = AssetClass.cash ∨ a.asset_type = AssetClass.insurance) :
    fetchPrice adapters cacheLookup a = (none, ⟨0, 0, 0⟩) := by
  simp [fetchPrice, h]

/-- Witness for `fetch_price_skips_cash_insurance`: a cash position is
skipped with an empty effect trace even when the cache holds an entry for
it and the adapter would answer. -/
theorem fetch_price_skips_cash_insurance_witness :
    ((⟨3, 1, AssetClass.cash, "JPY", some 100, some 1, some 0⟩ : Asset).asset_type
        = AssetClass.cash
      ∨ (⟨3, 1, AssetClass.cash, "JPY", some 100, some 1, some 0⟩ : Asset).asset_type
        = AssetClass.insurance)
    ∧ fetchPrice (fun _ _ => Except.ok (1, "Yen")) (fun _ => some (1, "Yen"))
        ⟨3, 1, AssetClass.cash, "JPY", some 100, some 1, some 0⟩
      = (none, ⟨0, 0, 0⟩) := by
  refine ⟨Or.inl rfl, ?_⟩
  exact fetch_price_skips_cash_insurance (fun _ _ => Except.ok (1, "Yen"))
    (fun _ => some (1, "Yen"))
    ⟨3, 1, AssetClass.cash, "JPY", some 100, some 1, some 0⟩ (Or.inl rfl)

/-- Errors raised by the source adapters. -/
inductive AdapterError
  | unsupportedSymbol
  | quoteUnavailable
deriving DecidableEq, Repr

/-- `supported_symbols` of `_fetch_crypto` (price_service.py line 289). -/
def supportedCryptoSymbols : List String := ["BTC", "ETH", "XRP", "DOGE"]

/-- `symbol_map` of `_fetch_investment_trust`
(price_service.py lines 442–446). -/
def investmentTrustSymbolMap : List (String × String) :=
  [("S&P500", "JP90C000GKC6"), ("オルカン", "JP90C000H1T1"), ("FANG+", "JP90C000FZD4")]

/-- Python's `str.upper()` (ASCII), applied character by character. -/
def pyUpper (s : String) : String := String.mk (s.data.map Char.toUpper)

/-- `PriceService._fetch_crypto` (price_service.py lines 283–436).  The
symbol is first upper-cased (`(symbol or '').upper()`, line 286) and checked
against the allow-list before any request; `net` abstracts the
`session.get` on the pair page plus the whole fallback parse chain
(methods 1–6).  The second component counts HTTP requests issued. -/
def fetchCrypto (net : String → Except Unit (ℚ × String)) (symbol : Option String) :
    Except AdapterError (ℚ × String) × ℕ :=
  let sym := pyUpper (symbol.getD "")
  if sym ∈ supportedCryptoSymbols then
    match net sym with
    | Except.ok pn => (Except.ok pn, 1)
    | Except.error _ => (Except.error AdapterError.quoteUnavailable, 1)
  else
    (Except.error AdapterError.unsupportedSymbol, 0)

/-- `PriceService._fetch_investment_trust` (price_service.py lines 438–548):
the symbol is looked up (exactly, no normalization) in the fund-id map
before any request; `net` abstracts the `session.get` on the fund page plus
the parse chain.  The second component counts HTTP requests issued. -/
def fetchInvestmentTrust (net : String → Except Unit (ℚ × String)) (symbol : String) :
    Except AdapterError (ℚ × String) × ℕ :=
  match investmentTrustSymbolMap.lookup symbol with
  | none => (Except.error AdapterError.unsupportedSymbol, 0)
  | some fundId =>
    match net fundId with
    | Except.ok pn => (Except.ok pn, 1)
    | Except.error _ => (Except.error AdapterError.quoteUnavailable, 1)

/-- C9 as stated is false for the crypto adapter: the symbol "btc" is
outside the literal allow-list {BTC, ETH, XRP, DOGE}, yet `_fetch_crypto`
upper-cases it first, accepts it, and issues an HTTP request instead of
raising an unsupported-symbol error. -/
theorem crypto_allowlist_counterexample :
    ("btc" ∉ supportedCryptoSymbols)
    ∧ (fetchCrypto (fun _ => Except.ok (100, "Bitcoin")) (some "btc")).2 = 1
    ∧ (fetchCrypto (fun _ => Except.ok (100, "Bitcoin")) (some "btc")).1
        = Except.ok (100, "Bitcoin") := by
  refine ⟨by decide, by decide, rfl⟩

/-- C9 amended: a crypto symbol whose upper-cased form is outside
{BTC, ETH, XRP, DOGE}, and a fund symbol outside {S&P500, オルカン, FANG+}
(compared exactly), each make the adapter return the unsupported-symbol
error with zero network calls — it fails fast before any HTTP request. -/
theorem adapter_allowlists_fail_fast (net : String → Except Unit (ℚ × String))
    (cs : Option String) (fs : String)
    (hc : pyUpper (cs.getD "") ∉ supportedCryptoSymbols)
    (hf : fs ∉ investmentTrustSymbolMap.map Prod.fst) :
    fetchCrypto net cs = (Except.error AdapterError.unsupportedSymbol, 0)
    ∧ fetchInvestmentTrust net fs = (Except.error AdapterError.unsupportedSymbol, 0) := by
  constructor
  · simp [fetchCrypto, hc]
  · have hf3 : ¬ fs = "S&P500" ∧ ¬ fs = "オルカン" ∧ ¬ fs = "FANG+" := by
      simp only [investmentTrustSymbolMap, List.map, List.mem_cons,
        List.not_mem_nil, or_false, not_or] at hf
      exact hf
    have e1 : (fs == "S&P500") = false := beq_eq_false_iff_ne.mpr hf3.1
    have e2 : (fs == "オルカン") = false := beq_eq_false_iff_ne.mpr hf3.2.1
    have e3 : (fs == "FANG+") = false := beq_eq_false_iff_ne.mpr hf3.2.2
    have hlook : investmentTrustSymbolMap.lookup fs = none := by
      simp [List.lookup, investmentTrustSymbolMap, e1, e2, e3]
    simp [fetchInvestmentTrust, hlook]

/-- Witness for `adapter_allowlists_fail_fast`: the crypto symbol "ada" and
the fund symbol "NASDAQ100" both fail fast with no network call. -/
theorem adapter_allowlists_fail_fast_witness :
    ((pyUpper ((some "ada" : Option String).getD "") ∉ supportedCryptoSymbols)
      ∧ ("NASDAQ100" ∉ investmentTrustSymbolMap.map Prod.fst))
    ∧ fetchCrypto (fun _ => Except.ok (1, "x")) (some "ada")
        = (Except.error AdapterError.unsupportedSymbol, 0)
    ∧ fetchInvestmentTrust (fun _ => Except.ok (1, "x")) "NASDAQ100"
        = (Except.error AdapterError.unsupportedSymbol, 0) := by
  refine ⟨⟨by decide, by decide⟩, ?_, ?_⟩
  · exact (adapter_allowlists_fail_fast (fun _ => Except.ok (1, "x"))
      (some "ada") "NASDAQ100" (by decide) (by decide)).1
  · exact (adapter_allowlists_fail_fast (fun _ => Except.ok (1, "x"))
      (some "ada") "NASDAQ100" (by decide) (by decide)).2

/-- How the result-collection loop of `fetch_prices_parallel`
(price_service.py lines 132–145) treats one completed future:
`Except.error` models a future whose `result()` raised (per-task timeout or
exception, both caught and logged); `Except.ok none` models `fetch_price`
returning None; only `Except.ok (some r)` is appended to the result list. -/
def fetchOutcomeResult : Except Unit (Option FetchResult) → Option FetchResult
  | Except.ok (some r) => some r
  | Except.ok none => none
  | Except.error _ => none

/-- A lookup "succeeded" iff it contributes a result dict. -/
def isFetchSuccess (o : Except Unit (Option FetchResult)) : Bool :=
  (fetchOutcomeResult o).isSome

/-- `PriceService.fetch_prices_parallel` (price_service.py lines 115–156):
each asset's lookup completes with an outcome `outcome a`, and the completed
successes are collected; errors and timeouts are swallowed per future, so
the call itself never raises.  (Completion order is a permutation of the
input order; the counting claims below are order-invariant.) -/
def fetchPricesParallel (outcome : Asset → Except Unit (Option FetchResult))
    (assets : List Asset) : List FetchResult :=
  assets.filterMap fun a => fetchOutcomeResult (outcome a)

/-- C4: partial-failure tolerance of the batch fetch.  For every batch of N
assets the result list has length ≤ N; when exactly K of the N lookups fail
(error, timeout, or a skipped/failed `fetch_price`) the result has exactly
N − K entries; every returned entry is the payload of some successful
lookup of the batch; and every dict produced by `fetch_price` carries the
asset's id and symbol (with the fetched price and name). -/
theorem fetch_parallel_partial_failure
    (outcome : Asset → Except Unit (Option FetchResult)) (assets : List Asset) :
    (fetchPricesParallel outcome assets).length ≤ assets.length
    ∧ (fetchPricesParallel outcome assets).length
        = assets.length - assets.countP (fun a => ! isFetchSuccess (outcome a))
    ∧ (∀ r, r ∈ fetchPricesParallel outcome assets →
        ∃ a, a ∈ assets ∧ outcome a = Except.ok (some r))
    ∧ (∀ (adapters : AssetClass → String → Except Unit (ℚ × String))
        (cacheLookup : String → Option (ℚ × String)) (a : Asset) (r : FetchResult),
        (fetchPrice adapters cacheLookup a).1 = some r →
        r.id = a.id ∧ r.symbol = a.symbol) := by
  have hcount : ∀ l : List Asset,
      (fetchPricesParallel outcome l).length
        = l.length - l.countP (fun a => ! isFetchSuccess (outcome a)) := by
    intro l
    induction l with
    | nil => simp [fetchPricesParallel]
    | cons a as ih =>
      have hle : as.countP (fun a => ! isFetchSuccess (outcome a)) ≤ as.length :=
        List.countP_le_length _
      cases hres : fetchOutcomeResult (outcome a) with
      | none =>
        have hsucc : isFetchSuccess (outcome a) = false := by
          simp [isFetchSuccess, hres]
        simp only [fetchPricesParallel, List.filterMap_cons, hres,
          List.countP_cons, hsucc, Bool.not_false, if_true, List.length_cons] at *
        simp only [ih]
        omega
      | some r =>
        have hsucc : isFetchSuccess (outcome a) = true := by
          simp [isFetchSuccess, hres]
        simp only [fetchPricesParallel, List.filterMap_cons, hres,
          List.countP_cons, hsucc, Bool.not_true, if_false, List.length_cons] at *
        simp [ih]
        omega
  refine ⟨?_, hcount assets, ?_, ?_⟩
  · have h := hcount assets
    omega
  · intro r hr
    rw [fetchPricesParallel, List.mem_filterMap] at hr
    obtain ⟨a, ha, hfa⟩ := hr
    refine ⟨a, ha, ?_⟩
    cases ho : outcome a with
    | error e => rw [ho] at hfa; exact absurd hfa (by simp [fetchOutcomeResult])
    | ok o =>
      cases o with
      | none => rw [ho] at hfa; exact absurd hfa (by simp [fetchOutcomeResult])
      | some r' =>
        rw [ho] at hfa
        simp only [fetchOutcomeResult, Option.some.injEq] at hfa
        rw [hfa]
  · intro adapters cacheLookup a r h
    unfold fetchPrice at h
    split at h
    · simp at h
    · split at h
      · simp only [Option.some.injEq] at h
        rw [← h]
        exact ⟨rfl, rfl⟩
      · split at h
        · simp at h
        · simp only [Option.some.injEq] at h
          rw [← h]
          exact ⟨rfl, rfl⟩

/-- Witness for `fetch_parallel_partial_failure`: a batch of three assets in
which lookup 1 succeeds, lookup 2 raises and lookup 3 returns None yields
exactly 3 − 2 = 1 result, whose payload is the successful lookup's dict; and
a `fetch_price` result carries the asset's id and symbol. -/
theorem fetch_parallel_partial_failure_witness :
    ((⟨10, "A", 5, "N"⟩ : FetchResult) ∈ fetchPricesParallel
        (fun a => if a.id = 10 then Except.ok (some ⟨10, "A", 5, "N"⟩)
                  else if a.id = 11 then Except.error ()
                  else Except.ok none)
        [⟨10, 1, AssetClass.jp_stock, "A", some 1, some 5, some 0⟩,
         ⟨11, 1, AssetClass.jp_stock, "B", some 1, some 5, some 0⟩,
         ⟨12, 1, AssetClass.gold, "C", some 1, some 5, some 0⟩]
      ∧ (fetchPrice (fun _ _ => Except.ok (5, "N")) (fun _ => none)
          ⟨10, 1, AssetClass.jp_stock, "A", some 1, some 5, some 0⟩).1
        = some ⟨10, "A", 5, "N"⟩)
    ∧ (∃ a, a ∈ [⟨10, 1, AssetClass.jp_stock, "A", some 1, some 5, some 0⟩,
         (⟨11, 1, AssetClass.jp_stock, "B", some 1, some 5, some 0⟩ : Asset),
         ⟨12, 1, AssetClass.gold, "C", some 1, some 5, some 0⟩]
        ∧ (fun a : Asset => if a.id = 10 then Except.ok (some (⟨10, "A", 5, "N"⟩ : FetchResult))
                  else if a.id = 11 then Except.error ()
                  else Except.ok none) a = Except.ok (some ⟨10, "A", 5, "N"⟩))
    ∧ ((⟨10, "A", 5, "N"⟩ : FetchResult).id
          = (⟨10, 1, AssetClass.jp_stock, "A", some 1, some 5, some 0⟩ : Asset).id
        ∧ (⟨10, "A", 5, "N"⟩ : FetchResult).symbol
          = (⟨10, 1, AssetClass.jp_stock, "A", some 1, some 5, some 0⟩ : Asset).symbol) := by
  refine ⟨⟨by decide, rfl⟩, ?_, ?_⟩
  · exact (fetch_parallel_partial_failure
      (fun a => if a.id = 10 then Except.ok (some ⟨10, "A", 5, "N"⟩)
                else if a.id = 11 then Except.error ()
                else Except.ok none)
      [⟨10, 1, AssetClass.jp_stock, "A", some 1, some 5, some 0⟩,
       ⟨11, 1, AssetClass.jp_stock, "B", some 1, some 5, some 0⟩,
       ⟨12, 1, AssetClass.gold, "C", some 1, some 5, some 0⟩]).2.2.1
      ⟨10, "A", 5, "N"⟩ (by decide)
  · exact (fetch_parallel_partial_failure
      (fun a => if a.id = 10 then Except.ok (some ⟨10, "A", 5, "N"⟩)
                else if a.id = 11 then Except.error ()
                else Except.ok none)
      [⟨10, 1, AssetClass.jp_stock, "A", some 1, some 5, some 0⟩,
       ⟨11, 1, AssetClass.jp_stock, "B", some 1, some 5, some 0⟩,
       ⟨12, 1, AssetClass.gold, "C", some 1, some 5, some 0⟩]).2.2.2
      (fun _ _ => Except.ok (5, "N")) (fun _ => none)
      ⟨10, 1, AssetClass.jp_stock, "A", some 1, some 5, some 0⟩
      ⟨10, "A", 5, "N"⟩ rfl

/-- `profit_rate = (profit / cost_value * 100) if cost_value > 0 else 0.0`
(routes/dashboard.py line 201, same guard as line 247 for the portfolio
total). -/
def profitRate (profit cost : ℚ) : ℚ :=
  if 0 < cost then profit / cost * 100 else 0

/-- `calculate_day_change` (routes/dashboard.py lines 135–163): with no
second history row it returns (0.0, 0.0); otherwise it reads the class
column of that row and guards the rate against a non-positive previous
value. -/
def calculateDayChange (yesterdayData : Option HistRow) (currentValue : ℚ)
    (t : AssetClass) : ℚ × ℚ :=
  match yesterdayData with
  | none => (0, 0)
  | some y =>
    let yv := histValue y t
    let dc := currentValue - yv
    (dc, if 0 < yv then dc / yv * 100 else 0)

/-- The total-assets day change (routes/dashboard.py lines 252–261): same
shape against the second row's `total_value`. -/
def calculateTotalDayChange (yesterdayData : Option HistRow) (totalAssets : ℚ) :
    ℚ × ℚ :=
  match yesterdayData with
  | none => (0, 0)
  | some y =>
    let yt := y.total_value
    (totalAssets - yt, if 0 < yt then (totalAssets - yt) / yt * 100 else 0)

/-- C6: division guards.  The profit rate is profit ÷ cost × 100 exactly
when cost > 0 and exactly 0 otherwise; the per-class day-change rate is
exactly 0 when there is no previous snapshot row or when the previous value
of the class is 0; and the total day-change rate has the same guard against
the previous total value. -/
theorem rate_division_guards (profit cost currentValue totalAssets : ℚ)
    (y : HistRow) (t : AssetClass) :
    (0 < cost → profitRate profit cost = profit / cost * 100)
    ∧ (¬ 0 < cost → profitRate profit cost = 0)
    ∧ (calculateDayChange none currentValue t).2 = 0
    ∧ (histValue y t = 0 → (calculateDayChange (some y) currentValue t).2 = 0)
    ∧ (calculateTotalDayChange none totalAssets).2 = 0
    ∧ (y.total_value = 0 → (calculateTotalDayChange (some y) totalAssets).2 = 0) := by
  refine ⟨?_, ?_, rfl, ?_, rfl, ?_⟩
  · intro h
    simp [profitRate, h]
  · intro h
    simp [profitRate, h]
  · intro h
    simp [calculateDayChange, h]
  · intro h
    simp [calculateTotalDayChange, h]

/-- Witness for `rate_division_guards`: cost 4 gives rate 25 for profit 1;
cost 0 gives rate 0; a yesterday row whose jp_stock value and total are 0
gives day-change rates exactly 0. -/
theorem rate_division_guards_witness :
    ((0 : ℚ) < 4 ∧ profitRate 1 4 = 1 / 4 * 100)
    ∧ (¬ (0 : ℚ) < 0 ∧ profitRate 1 0 = 0)
    ∧ (histValue yesterdayRow AssetClass.gold = 0
        ∧ (calculateDayChange (some yesterdayRow) 7 AssetClass.gold).2 = 0) := by
  have h := rate_division_guards 1 4 7 7 yesterdayRow AssetClass.gold
  have h0 := rate_division_guards 1 0 7 7 yesterdayRow AssetClass.gold
  refine ⟨⟨by norm_num, h.1 (by norm_num)⟩,
    ⟨by norm_num, h0.2.1 (by norm_num)⟩,
    ⟨by decide, (h.2.2.2.1 (by decide))⟩⟩

/-- `ORDER BY record_date DESC`: row `a` precedes row `b` when its date is
at least `b`'s. -/
def dateDesc (a b : HistRow) : Prop := b.record_date ≤ a.record_date

instance : DecidableRel dateDesc :=
  fun a b => inferInstanceAs (Decidable (b.record_date ≤ a.record_date))

instance : IsTotal HistRow dateDesc :=
  ⟨fun a b => le_total b.record_date a.record_date⟩

instance : IsTrans HistRow dateDesc :=
  ⟨fun _ _ _ hab hbc => le_trans hbc hab⟩

/-- The user's `asset_history` rows (`WHERE user_id = ?`). -/
def userRows (h : List HistRow) (u : ℕ) : List HistRow :=
  h.filter fun r => decide (r.user_id = u)

/-- The `recent_records` query of `get_dashboard_data`
(routes/dashboard.py lines 62–82): the user's history ordered by
`record_date DESC`, `LIMIT 2`. -/
def recentRecords (h : List HistRow) (u : ℕ) : List HistRow :=
  (List.insertionSort dateDesc (userRows h u)).take 2

/-- `yesterday_data` (routes/dashboard.py lines 85–97): the second of the
recent records when there are at least two, otherwise None. -/
def yesterdayData (h : List HistRow) (u : ℕ) : Option HistRow :=
  (recentRecords h u)[1]?

/-- The dashboard's per-class day change for the current value, as wired in
`get_asset_totals` (routes/dashboard.py line 204). -/
def dashboardDayChange (h : List HistRow) (u : ℕ) (currentValue : ℚ)
    (t : AssetClass) : ℚ × ℚ :=
  calculateDayChange (yesterdayData h u) currentValue t

/-- The dashboard's total day change (routes/dashboard.py lines 252–261). -/
def dashboardTotalDayChange (h : List HistRow) (u : ℕ) (totalAssets : ℚ) : ℚ × ℚ :=
  calculateTotalDayChange (yesterdayData h u) totalAssets

/-- C10: the dashboard's day-change figures compare current totals against
the second row of the user's history ordered by record_date descending —
whatever calendar date that row carries (the dates below are unconstrained) —
and with fewer than two history rows every per-class and total day-change
and rate is exactly 0. -/
theorem dashboard_day_change_second_most_recent (h : List HistRow) (u : ℕ)
    (currentValue totalAssets : ℚ) (t : AssetClass) :
    List.Sorted dateDesc (List.insertionSort dateDesc (userRows h u))
    ∧ (List.insertionSort dateDesc (userRows h u)).Perm (userRows h u)
    ∧ (∀ y, (List.insertionSort dateDesc (userRows h u))[1]? = some y →
        dashboardDayChange h u currentValue t
          = (currentValue - histValue y t,
             if 0 < histValue y t
             then (currentValue - histValue y t) / histValue y t * 100 else 0)
        ∧ dashboardTotalDayChange h u totalAssets
          = (totalAssets - y.total_value,
             if 0 < y.total_value
             then (totalAssets - y.total_value) / y.total_value * 100 else 0))
    ∧ ((userRows h u).length < 2 →
        dashboardDayChange h u currentValue t = (0, 0)
        ∧ dashboardTotalDayChange h u totalAssets = (0, 0)) := by
  have htake : (recentRecords h u)[1]?
      = (List.insertionSort dateDesc (userRows h u))[1]? := by
    unfold recentRecords
    exact List.getElem?_take_of_lt (by norm_num)
  refine ⟨List.sorted_insertionSort dateDesc (userRows h u),
    List.perm_insertionSort dateDesc (userRows h u), ?_, ?_⟩
  · intro y hy
    constructor
    · unfold dashboardDayChange yesterdayData
      rw [htake, hy]
      rfl
    · unfold dashboardTotalDayChange yesterdayData
      rw [htake, hy]
      rfl
  · intro hlen
    have hsortlen : (List.insertionSort dateDesc (userRows h u)).length
        = (userRows h u).length :=
      (List.perm_insertionSort dateDesc (userRows h u)).length_eq
    have hnone : (List.insertionSort dateDesc (userRows h u))[1]? = none := by
      apply List.getElem?_eq_none
      omega
    constructor
    · unfold dashboardDayChange yesterdayData
      rw [htake, hnone]
      rfl
    · unfold dashboardTotalDayChange yesterdayData
      rw [htake, hnone]
      rfl

/-- A history row for user 1 at day `d` with jp_stock value `v` and total
`tv`; all other columns 0. -/
def histRowAt (d : ℤ) (v tv : ℚ) : HistRow :=
  ⟨1, d, v, 0, 0, 0, 0, 0, 0, tv, 0, 0, 0, 0, 0, 0, 0, 0⟩

/-- Witness for `dashboard_day_change_second_most_recent`: a history holding
rows dated day 3 and day 10 (not calendar-adjacent, listed out of order) —
the day-change compares against the day-3 row, the second most recent. -/
theorem dashboard_day_change_second_most_recent_witness :
    ((List.insertionSort dateDesc
        (userRows [histRowAt 3 20 25, histRowAt 10 9 9] 1))[1]?
      = some (histRowAt 3 20 25))
    ∧ dashboardDayChange [histRowAt 3 20 25, histRowAt 10 9 9] 1 50 AssetClass.jp_stock
        = (50 - histValue (histRowAt 3 20 25) AssetClass.jp_stock,
           if 0 < histValue (histRowAt 3 20 25) AssetClass.jp_stock
           then (50 - histValue (histRowAt 3 20 25) AssetClass.jp_stock)
                  / histValue (histRowAt 3 20 25) AssetClass.jp_stock * 100
           else 0)
    ∧ dashboardTotalDayChange [histRowAt 3 20 25, histRowAt 10 9 9] 1 60
        = (60 - (histRowAt 3 20 25).total_value,
           if 0 < (histRowAt 3 20 25).total_value
           then (60 - (histRowAt 3 20 25).total_value)
                  / (histRowAt 3 20 25).total_value * 100
           else 0) := by
  have hy : (List.insertionSort dateDesc
      (userRows [histRowAt 3 20 25, histRowAt 10 9 9] 1))[1]?
      = some (histRowAt 3 20 25) := by decide
  have happ := (dashboard_day_change_second_most_recent
    [histRowAt 3 20 25, histRowAt 10 9 9] 1 50 60 AssetClass.jp_stock).2.2.1
    (histRowAt 3 20 25) hy
  exact ⟨hy, happ.1, happ.2⟩
